import Mathlib

/-!
Verification of the instaPFP resolution engine against its specification.

The repository consists of two Python files, `src/api.py` (FastAPI service)
and `src/main.py` (CLI), sharing the same resolution core:

* `_extract_largest_from_srcset` — srcset selector (api.py 44-60, main.py 24-40);
* `_extract_hd_from_page_json`  — embedded-data extractor (api.py 63-87, main.py 43-67);
* `fetch_pfp` / `download_pfp`  — resolution pipeline (api.py 105-159, main.py 70-144).

This file shallowly embeds those functions over `List Char` / `String`.
Character classes model the ASCII fragment of Python's `str.strip`, `re`'s
`\s` / `\S` / `\d`, and `html.unescape` restricted to the common named
entities with semicolons; the JSON parser models the fragment of
`json.loads` the code can meet here (null/bool/integers without leading
zeros/strings without \u escapes/arrays/objects).  On every input used in
a theorem below the model agrees with the Python semantics.
-/

namespace InstaPFP

/-- ASCII model of Python's regex class `\s` (and of `str.strip`'s notion of
whitespace): space, tab, newline, carriage return, vertical tab, form feed. -/
def isPySpace (c : Char) : Bool :=
  c == ' ' || c == '\t' || c == '\n' || c == '\r' || c == '\x0b' || c == '\x0c'

/-- Value of a run of ASCII decimal digits, as computed by Python's `int`. -/
def natOfDigits (ds : List Char) : Nat :=
  ds.foldl (fun n c => 10 * n + (c.toNat - 48)) 0

/-- Python's `str.split(',')`: split on every comma, keeping empty segments
(`"".split(',') == ['']`). -/
def splitOnComma : List Char → List (List Char)
  | [] => [[]]
  | ',' :: r => [] :: splitOnComma r
  | c :: r =>
    match splitOnComma r with
    | s :: ss => (c :: s) :: ss
    | [] => [[c]]

/-- Python's `str.strip()` (ASCII whitespace). -/
def pyStrip (l : List Char) : List Char :=
  ((l.dropWhile isPySpace).reverse.dropWhile isPySpace).reverse

/-- `re.match(r"(\S+)\s+(\d+)w", part)` on a (already stripped) segment:
an anchored *prefix* match — a maximal nonempty run of non-whitespace
(the url), a nonempty whitespace run, a maximal nonempty digit run, then
the literal `w`; anything after the `w` is ignored.  On success yields
the `(int(width), url)` pair that `_extract_largest_from_srcset` appends
to its candidate list. -/
def segMatchChars (l : List Char) : Option (Nat × String) :=
  if l.takeWhile (fun c => !(isPySpace c)) ≠ [] ∧
     ((l.dropWhile (fun c => !(isPySpace c))).takeWhile isPySpace) ≠ [] ∧
     (((l.dropWhile (fun c => !(isPySpace c))).dropWhile isPySpace).takeWhile Char.isDigit) ≠ [] ∧
     ((((l.dropWhile (fun c => !(isPySpace c))).dropWhile isPySpace).dropWhile Char.isDigit).head? = some 'w')
  then some (natOfDigits (((l.dropWhile (fun c => !(isPySpace c))).dropWhile isPySpace).takeWhile Char.isDigit),
             String.mk (l.takeWhile (fun c => !(isPySpace c))))
  else none

/-- One loop iteration of `_extract_largest_from_srcset`: `part.strip()`
followed by the anchored regex match. -/
def parseSrcsetSegment (part : List Char) : Option (Nat × String) :=
  segMatchChars (pyStrip part)

/-- The candidate list built by the `for part in srcset_value.split(',')`
loop, in loop order. -/
def candidatesOf (s : String) : List (Nat × String) :=
  (splitOnComma s.data).filterMap parseSrcsetSegment

/-- Stable insertion (descending by `key`, an earlier element staying ahead
of later elements with an equal key). -/
def insertDesc (key : α → Int) (x : α) : List α → List α
  | [] => [x]
  | y :: ys => if key y > key x then y :: insertDesc key x ys else x :: y :: ys

/-- Python's stable `list.sort(key=..., reverse=True)`: descending by `key`,
ties kept in first-seen order. -/
def sortDescBy (key : α → Int) (l : List α) : List α :=
  l.foldr (insertDesc key) []

/-- The first element attaining the maximal `key`, i.e. the head of the
stable descending sort.  Used on the specification side of the theorems. -/
def firstMaxBy (key : α → Int) : List α → Option α
  | [] => none
  | x :: xs =>
    some (match firstMaxBy key xs with
          | none => x
          | some y => if key y > key x then y else x)

/-- `_extract_largest_from_srcset` (api.py 44-60 = main.py 24-40): the empty
string returns `None` at once; otherwise the comma-split segments are
matched, the candidate list is stably sorted descending by width and the
url of its head is returned, `None` when no segment matched. -/
def extract_largest_from_srcset (srcset_value : String) : Option String :=
  if srcset_value = "" then none
  else
    if candidatesOf srcset_value = [] then none
    else ((sortDescBy (fun p => (p.1 : Int)) (candidatesOf srcset_value)).head?).map Prod.snd

/-- Modelled from the spec (§4.1): "among the remaining candidates, select
the one with the strictly largest width; ties broken by first-seen order
...  Returns `None` if zero valid candidates."  Stated with `firstMaxBy`
and compared against `extract_largest_from_srcset` in the C1 theorem. -/
def selectSpecModel (s : String) : Option String :=
  (firstMaxBy (fun p => (p.1 : Int)) (candidatesOf s)).map Prod.snd

/-- `html.unescape` restricted to the common named and numeric entities
written with a semicolon; every other character passes through unchanged.
All markup used in the theorems below stays inside this fragment. -/
def unescapeChars : List Char → List Char
  | '&' :: 'q' :: 'u' :: 'o' :: 't' :: ';' :: rest => '"' :: unescapeChars rest
  | '&' :: 'a' :: 'm' :: 'p' :: ';' :: rest => '&' :: unescapeChars rest
  | '&' :: 'l' :: 't' :: ';' :: rest => '<' :: unescapeChars rest
  | '&' :: 'g' :: 't' :: ';' :: rest => '>' :: unescapeChars rest
  | '&' :: '#' :: '3' :: '4' :: ';' :: rest => '"' :: unescapeChars rest
  | '&' :: '#' :: '3' :: '9' :: ';' :: rest => Char.ofNat 39 :: unescapeChars rest
  | c :: rest => c :: unescapeChars rest
  | [] => []

/-- Strip an exact literal prefix, returning the remainder. -/
def stripLit : List Char → List Char → Option (List Char)
  | [], l => some l
  | _ :: _, [] => none
  | p :: ps, c :: cs => if c = p then stripLit ps cs else none

/-- Strip a literal prefix case-insensitively (the pattern is given in
lower case), modelling `re.I` on an ASCII literal. -/
def ciStripLit : List Char → List Char → Option (List Char)
  | [], l => some l
  | _ :: _, [] => none
  | p :: ps, c :: cs => if c.toLower = p then ciStripLit ps cs else none

/-- `re.search` with a matcher tried at one position: scan positions left to
right and return the first (leftmost) successful match. -/
def searchList (f : List Char → Option α) : List Char → Option α
  | [] => f []
  | c :: t =>
    match f (c :: t) with
    | some r => some r
    | none => searchList f t

/-- Characters admitted by the regex class `[^"\\]`. -/
def isUrlChar (c : Char) : Bool := !(c == '"' || c == '\\')

/-- Matcher (at one position) for `<keyLit>\s*:\s*"(https:[^"\\]+)"`,
i.e. the shape of `"profile_pic_url_hd"\s*:\s*"(https:[^"\\]+)"` and of
`"url"\s*:\s*"(https:[^"\\]+)"`; returns the captured url. -/
def matchKeyHttpsAt (keyLit : List Char) (l : List Char) : Option String :=
  match stripLit keyLit l with
  | none => none
  | some l1 =>
    match stripLit [':'] (l1.dropWhile isPySpace) with
    | none => none
    | some l2 =>
      match stripLit ('"' :: "https:".data) (l2.dropWhile isPySpace) with
      | none => none
      | some l3 =>
        if l3.takeWhile isUrlChar ≠ [] ∧ (l3.dropWhile isUrlChar).head? = some '"'
        then some (String.mk ("https:".data ++ l3.takeWhile isUrlChar))
        else none

/-- Matcher at one position for `"profile_pic_url_hd"\s*:\s*"(https:[^"\\]+)"`. -/
def matchProfilePicHdAt (l : List Char) : Option String :=
  matchKeyHttpsAt "\"profile_pic_url_hd\"".data l

/-- Matcher at one position for the inner `"url"\s*:\s*"(https:[^"\\]+)"`. -/
def matchUrlKeyAt (l : List Char) : Option String :=
  matchKeyHttpsAt "\"url\"".data l

/-- Matcher at one position for
`"hd_profile_pic_versions"\s*:\s*(\[[^\]]+\])`; returns the captured
bracketed span (which therefore contains no inner closing bracket). -/
def matchVersionsSpanAt (l : List Char) : Option (List Char) :=
  match stripLit "\"hd_profile_pic_versions\"".data l with
  | none => none
  | some l1 =>
    match stripLit [':'] (l1.dropWhile isPySpace) with
    | none => none
    | some l2 =>
      match stripLit ['['] (l2.dropWhile isPySpace) with
      | none => none
      | some l3 =>
        if l3.takeWhile (fun c => !(c == ']')) ≠ [] ∧
           (l3.dropWhile (fun c => !(c == ']'))).head? = some ']'
        then some ('[' :: l3.takeWhile (fun c => !(c == ']')) ++ [']'])
        else none

/-- Matcher at one position for
`"hd_profile_pic_url_info"\s*:\s*\{([^}]+)\}`; returns `m.group(0)`, the
whole matched fragment, which the code then searches for a nested url. -/
def matchUrlInfoAt (l : List Char) : Option (List Char) :=
  match stripLit "\"hd_profile_pic_url_info\"".data l with
  | none => none
  | some l1 =>
    match stripLit [':'] (l1.dropWhile isPySpace) with
    | none => none
    | some l2 =>
      match stripLit ['\x7b'] (l2.dropWhile isPySpace) with
      | none => none
      | some l3 =>
        if l3.takeWhile (fun c => !(c == '\x7d')) ≠ [] ∧
           (l3.dropWhile (fun c => !(c == '\x7d'))).head? = some '\x7d'
        then some ("\"hd_profile_pic_url_info\"".data ++ l1.takeWhile isPySpace
                   ++ ':' :: l2.takeWhile isPySpace
                   ++ '\x7b' :: l3.takeWhile (fun c => !(c == '\x7d')) ++ ['\x7d'])
        else none

/-- JSON model: the values `json.loads` can produce on the fragment the
extractor meets (numbers restricted to integers). -/
inductive Json where
  | null
  | bool (b : Bool)
  | num (n : Int)
  | str (s : String)
  | arr (elems : List Json)
  | obj (fields : List (String × Json))

/-- `dict.get`: Python keeps the last duplicate key, so look up from the
right. -/
def objGet (fields : List (String × Json)) (k : String) : Option Json :=
  (fields.reverse.find? (fun p => p.1 == k)).map Prod.snd

/-- JSON whitespace. -/
def jsonWs (c : Char) : Bool := c == ' ' || c == '\t' || c == '\n' || c == '\r'

/-- A single JSON string escape (the `\uXXXX` form is outside the modelled
fragment). -/
def escChar (c : Char) : Option Char :=
  if c = '"' then some '"'
  else if c = '\\' then some '\\'
  else if c = '/' then some '/'
  else if c = 'n' then some '\n'
  else if c = 't' then some '\t'
  else if c = 'r' then some '\r'
  else if c = 'b' then some (Char.ofNat 8)
  else if c = 'f' then some (Char.ofNat 12)
  else none

/-- Body of a JSON string after the opening quote; strict about raw control
characters, as `json.loads` is. -/
def parseStringBody : List Char → Option (String × List Char)
  | '"' :: r => some ("", r)
  | '\\' :: c :: r =>
    match escChar c with
    | some e => (parseStringBody r).map (fun p => (String.mk (e :: p.1.data), p.2))
    | none => none
  | c :: r =>
    if c = '\\' || c.toNat < 32 then none
    else (parseStringBody r).map (fun p => (String.mk (c :: p.1.data), p.2))
  | [] => none

/-- A JSON integer literal (no leading zeros, as in the JSON grammar). -/
def parseNatDigits (l : List Char) : Option (Nat × List Char) :=
  if l.takeWhile Char.isDigit = [] then none
  else if (l.takeWhile Char.isDigit).head? = some '0' ∧ (l.takeWhile Char.isDigit).length ≠ 1
  then none
  else some (natOfDigits (l.takeWhile Char.isDigit), l.dropWhile Char.isDigit)

mutual

/-- Recursive-descent JSON value parser (fuel-indexed for termination). -/
def parseValue : Nat → List Char → Option (Json × List Char)
  | 0, _ => none
  | Nat.succ fuel, l =>
    match l.dropWhile jsonWs with
    | 'n' :: 'u' :: 'l' :: 'l' :: r => some (.null, r)
    | 't' :: 'r' :: 'u' :: 'e' :: r => some (.bool true, r)
    | 'f' :: 'a' :: 'l' :: 's' :: 'e' :: r => some (.bool false, r)
    | '"' :: r => (parseStringBody r).map (fun p => (.str p.1, p.2))
    | '[' :: r =>
      (match r.dropWhile jsonWs with
       | ']' :: r2 => some (.arr [], r2)
       | _ => (parseElems fuel r).map (fun p => (.arr p.1, p.2)))
    | '\x7b' :: r =>
      (match r.dropWhile jsonWs with
       | '\x7d' :: r2 => some (.obj [], r2)
       | _ => (parseMembers fuel r).map (fun p => (.obj p.1, p.2)))
    | '-' :: r => (parseNatDigits r).map (fun p => (.num (-(p.1 : Int)), p.2))
    | c :: r =>
      if c.isDigit then (parseNatDigits (c :: r)).map (fun p => (.num (p.1 : Int), p.2))
      else none
    | [] => none

/-- Comma-separated array elements up to the closing bracket. -/
def parseElems : Nat → List Char → Option (List Json × List Char)
  | 0, _ => none
  | Nat.succ fuel, l => do
    let (v, r) ← parseValue fuel l
    match r.dropWhile jsonWs with
    | ',' :: r2 => do
      let (vs, r3) ← parseElems fuel r2
      pure (v :: vs, r3)
    | ']' :: r2 => pure ([v], r2)
    | _ => none

/-- Comma-separated object members up to the closing brace. -/
def parseMembers : Nat → List Char → Option (List (String × Json) × List Char)
  | 0, _ => none
  | Nat.succ fuel, l =>
    match l.dropWhile jsonWs with
    | '"' :: r => do
      let (k, r1) ← parseStringBody r
      match r1.dropWhile jsonWs with
      | ':' :: r2 => do
        let (v, r3) ← parseValue fuel r2
        match r3.dropWhile jsonWs with
        | ',' :: r4 => do
          let (ms, r5) ← parseMembers fuel r4
          pure ((k, v) :: ms, r5)
        | '\x7d' :: r4 => pure ([(k, v)], r4)
        | _ => none
      | _ => none
    | _ => none

end

/-- `json.loads` on the modelled fragment: a full parse with nothing but
whitespace left over. -/
def json_loads (l : List Char) : Option Json :=
  match parseValue (2 * l.length + 2) l with
  | some (v, r) => if r.dropWhile jsonWs = [] then some v else none
  | none => none

/-- The sort key `lambda v: v.get("width", 0)`: `0` when the field is
absent, the integer when present; a non-integer value (or a non-dict
entry) makes the Python sort raise, which the surrounding
`except Exception: pass` turns into fall-through — modelled as `none`. -/
def widthKeyOf (v : Json) : Option Int :=
  match v with
  | .obj fs =>
    match objGet fs "width" with
    | none => some 0
    | some (.num n) => some n
    | some _ => none
  | _ => none

/-- CPython computes all sort keys up front; `none` when any entry would
raise. -/
def keyedWidths : List Json → Option (List (Int × Json))
  | [] => some []
  | v :: vs => do
    let w ← widthKeyOf v
    let rest ← keyedWidths vs
    pure ((w, v) :: rest)

/-- `versions[0].get("url")` on an object entry: the url when it is a JSON
string, `none` when the field is absent (the only cases the code meets). -/
def jsonUrlField (v : Json) : Option String :=
  match v with
  | .obj fs =>
    match objGet fs "url" with
    | some (.str s) => some s
    | _ => none
  | _ => none

/-- The inner `hd_profile_pic_versions` block of
`_extract_hd_from_page_json`: `some r` means the Python function hits the
`return versions[0].get("url")` statement and terminally returns `r`
(possibly `None`!); `none` means it falls through to the
`hd_profile_pic_url_info` strategy (parse failure, not a list, empty
list, or an exception while sorting). -/
def versionsResult (span : List Char) : Option (Option String) :=
  match json_loads span with
  | some (.arr vs) =>
    if vs.isEmpty then none
    else
      match keyedWidths vs with
      | some keyed =>
        match (sortDescBy Prod.fst keyed).head? with
        | some top => some (jsonUrlField top.2)
        | none => none
      | none => none
  | _ => none

/-- The `hd_profile_pic_url_info` strategy: find the object fragment, then
search the whole matched fragment for a nested https url. -/
def urlInfoStep (html : List Char) : Option String :=
  match searchList matchUrlInfoAt html with
  | some frag => searchList matchUrlKeyAt frag
  | none => none

/-- `_extract_hd_from_page_json` (api.py 63-87 = main.py 43-67) as a
function of the page markup: unescape HTML entities, then try the three
strategies in order.  Note that a successful `hd_profile_pic_versions`
parse *returns* (even `None`) and only a failed one falls through. -/
def extract_hd_from_page_json (markup : String) : Option String :=
  match searchList matchProfilePicHdAt (unescapeChars markup.data) with
  | some u => some u
  | none =>
    match searchList matchVersionsSpanAt (unescapeChars markup.data) with
    | some span =>
      match versionsResult span with
      | some r => r
      | none => urlInfoStep (unescapeChars markup.data)
    | none => urlInfoStep (unescapeChars markup.data)

/-- Matcher at one position for the 404-template regex
`r"Sorry, this page isn(?:'|’)t available\\."` under `re.I`.  In the raw
string, `\\.` is the regex escape `\\` followed by `.`: a literal
backslash and then any character other than a newline. -/
def matchNotFoundAt (l : List Char) : Option Unit :=
  match ciStripLit "sorry, this page isn".data l with
  | none => none
  | some l1 =>
    match l1 with
    | c :: l2 =>
      if c = Char.ofNat 39 ∨ c = '’' then
        match ciStripLit "t available".data l2 with
        | none => none
        | some l3 =>
          match l3 with
          | '\\' :: c2 :: _ => if c2 = '\n' then none else some ()
          | _ => none
      else none
    | [] => none

/-- The `# 404 template check` of both variants:
`re.search(r"Sorry, this page isn(?:'|’)t available\\.", html, re.I)`. -/
def notFound404Matches (html : String) : Bool :=
  (searchList matchNotFoundAt html.data).isSome

/-- A page snapshot as the pipeline sees it: the `driver.page_source`
markup, and the located profile-image element's `(src, srcset)` attribute
pair (each already `or ""`-normalised) when the bounded wait for
`img[alt*='profile picture'], img[alt*='profile photo']` succeeded,
`none` when it timed out. -/
structure PageSnapshot where
  markup : String
  imgEl : Option (String × String)

/-- The outcomes `fetch_pfp` can produce: the best url, or a raised
`HTTPException(status, detail)`. -/
inductive FetchOutcome where
  | ok (url : String)
  | httpError (status : Nat) (detail : String)
deriving DecidableEq, Repr

/-- Python's `a or b` for `a : Optional[str]`, `b : str`. -/
def pyOrStr (a : Option String) (b : String) : String :=
  match a with
  | some u => if u = "" then b else u
  | none => b

/-- The resolution portion of `fetch_pfp` (api.py 105-159) as a function of
the page snapshot (browser startup, navigation and teardown are the I/O
collaborators the spec scopes out).  Mirrors the source order: 404
template check, bounded wait for the image element (a timeout raises 404
immediately), `_extract_largest_from_srcset(srcset) or src`, embedded
JSON only when that is empty, 404 when still empty. -/
def fetch_pfp (s : PageSnapshot) : FetchOutcome :=
  if notFound404Matches s.markup then .httpError 404 "Username not found"
  else
    match s.imgEl with
    | none => .httpError 404 "Image not found"
    | some (src, srcset) =>
      match (if pyOrStr (extract_largest_from_srcset srcset) src = ""
             then extract_hd_from_page_json s.markup
             else some (pyOrStr (extract_largest_from_srcset srcset) src)) with
      | none => .httpError 404 "Image not found"
      | some u => if u = "" then .httpError 404 "Image not found" else .ok u

/-- The resolution portion of `download_pfp` (main.py 70-144): identical
chain, but every failure path (`Username not found`, timeout, no url —
and, via the blanket `except Exception`, even fetch errors) `return None`. -/
def download_pfp (s : PageSnapshot) : Option String :=
  if notFound404Matches s.markup then none
  else
    match s.imgEl with
    | none => none
    | some (src, srcset) =>
      match (if pyOrStr (extract_largest_from_srcset srcset) src = ""
             then extract_hd_from_page_json s.markup
             else some (pyOrStr (extract_largest_from_srcset srcset) src)) with
      | none => none
      | some u => if u = "" then none else some u

/-- `username.lstrip('@')` (api.py 107, main.py 72): strips *every* leading
`@`. -/
def normalize_username (u : String) : String :=
  String.mk (u.data.dropWhile (fun c => c = '@'))

/-- `f"https://www.instagram.com/{username}/"` applied after the
normalisation. -/
def profile_url_for (u : String) : String :=
  "https://www.instagram.com/" ++ normalize_username u ++ "/"

/-- What the `hd_profile_pic_versions` strategy alone would yield on some
markup (used to state that a present-but-different versions url loses to
`profile_pic_url_hd`). -/
def versionsUrlOf (html : List Char) : Option String :=
  match searchList matchVersionsSpanAt html with
  | some span =>
    match versionsResult span with
    | some r => r
    | none => none
  | none => none

/-- Markup carrying both a `profile_pic_url_hd` pair and a
`hd_profile_pic_versions` array with a different url. -/
def sampleHdBoth : String :=
  "\"profile_pic_url_hd\":\"https://cdn.example/hd.jpg\",\"hd_profile_pic_versions\":[\x7b\"width\":320,\"url\":\"https://cdn.example/v.jpg\"\x7d]"

/-- The spec's `hd_profile_pic_versions` example embedded in
HTML-entity-escaped JSON. -/
def sampleEscapedVersions : String :=
  "&quot;hd_profile_pic_versions&quot;:[\x7b&quot;width&quot;:320,&quot;url&quot;:&quot;s.jpg&quot;\x7d,\x7b&quot;width&quot;:1080,&quot;url&quot;:&quot;l.jpg&quot;\x7d]"

/-- The bracketed span the versions regex captures out of
`sampleEscapedVersions` after unescaping. -/
def sampleVersionsSpan : List Char :=
  "[\x7b\"width\":320,\"url\":\"s.jpg\"\x7d,\x7b\"width\":1080,\"url\":\"l.jpg\"\x7d]".data

/-- The parsed elements of `sampleVersionsSpan`. -/
def sampleVersionsJson : List Json :=
  [Json.obj [("width", Json.num 320), ("url", Json.str "s.jpg")],
   Json.obj [("width", Json.num 1080), ("url", Json.str "l.jpg")]]

/-- `sampleVersionsJson` decorated with its sort keys. -/
def sampleVersionsKeyed : List (Int × Json) :=
  [(320, Json.obj [("width", Json.num 320), ("url", Json.str "s.jpg")]),
   (1080, Json.obj [("width", Json.num 1080), ("url", Json.str "l.jpg")])]

/-- Markup whose versions array's widest entry lacks a `url` field while a
`hd_profile_pic_url_info` object with a url is present further on. -/
def sampleMissingUrl : String :=
  "\"hd_profile_pic_versions\":[\x7b\"width\":100\x7d],\"hd_profile_pic_url_info\":\x7b\"url\":\"https://cdn.example/info.jpg\"\x7d"

/-- Markup carrying only a `profile_pic_url_hd` pair. -/
def sampleHdOnly : String :=
  "\"profile_pic_url_hd\":\"https://cdn.example/hd.jpg\""

/-- The site's canonical "account does not exist" template text (with the
typographic apostrophe the page uses, and a plain final period). -/
def canonicalNotFound : String := "Sorry, this page isn’t available."

/-- The only texts the shipped regex can match: the template with a literal
backslash before the final character. -/
def backslashNotFound : String := "Sorry, this page isn’t available\\."

/-! ### Helper lemmas -/

theorem head_insertDesc (key : α → Int) (x : α) (l : List α) :
    (insertDesc key x l).head? =
      some (match l.head? with
            | none => x
            | some y => if key y > key x then y else x) := by
  cases l with
  | nil => rfl
  | cons y ys =>
    by_cases h : key y > key x
    · simp [insertDesc, h]
    · simp [insertDesc, h]

theorem head_sortDescBy (key : α → Int) (l : List α) :
    (sortDescBy key l).head? = firstMaxBy key l := by
  induction l with
  | nil => rfl
  | cons x xs ih =>
    show (insertDesc key x (sortDescBy key xs)).head? = _
    rw [head_insertDesc, ih, firstMaxBy]

theorem firstMaxBy_none_iff (key : α → Int) (l : List α) :
    firstMaxBy key l = none ↔ l = [] := by
  cases l <;> simp [firstMaxBy]

theorem firstMaxBy_mem (key : α → Int) :
    ∀ (l : List α) (m : α), firstMaxBy key l = some m → m ∈ l := by
  intro l
  induction l with
  | nil => intro m h; simp [firstMaxBy] at h
  | cons x xs ih =>
    intro m h
    rw [firstMaxBy] at h
    cases hfm : firstMaxBy key xs with
    | none => rw [hfm] at h; simp at h; simp [h.symm]
    | some y =>
      rw [hfm] at h
      simp at h
      by_cases hgt : key y > key x
      · rw [if_pos hgt] at h
        exact List.mem_cons_of_mem x (h ▸ ih y hfm)
      · rw [if_neg hgt] at h
        simp [h.symm]

theorem firstMaxBy_le (key : α → Int) :
    ∀ (l : List α) (m : α), firstMaxBy key l = some m →
      ∀ q ∈ l, key q ≤ key m := by
  intro l
  induction l with
  | nil => intro m h; simp [firstMaxBy] at h
  | cons x xs ih =>
    intro m h q hq
    rw [firstMaxBy] at h
    cases hfm : firstMaxBy key xs with
    | none =>
      rw [hfm] at h; simp at h
      have hxs : xs = [] := (firstMaxBy_none_iff key xs).mp hfm
      subst hxs
      have hqx : q = x := List.mem_singleton.mp hq
      rw [hqx, h]
    | some y =>
      rw [hfm] at h
      simp at h
      have hy : ∀ r ∈ xs, key r ≤ key y := ih y hfm
      rcases List.mem_cons.mp hq with hqx | hq'
      · by_cases hgt : key y > key x
        · rw [if_pos hgt] at h; rw [hqx, ← h]; omega
        · rw [if_neg hgt] at h; rw [hqx, ← h]
      · have hqy := hy q hq'
        by_cases hgt : key y > key x
        · rw [if_pos hgt] at h; rw [← h]; exact hqy
        · rw [if_neg hgt] at h; rw [← h]; omega

theorem select_eq_spec (s : String) :
    extract_largest_from_srcset s = selectSpecModel s := by
  by_cases hs : s = ""
  · subst hs
    have hc : candidatesOf "" = [] := by decide
    simp [extract_largest_from_srcset, selectSpecModel, hc, firstMaxBy]
  · by_cases hcs : candidatesOf s = []
    · simp [extract_largest_from_srcset, selectSpecModel, hs, hcs, firstMaxBy]
    · simp [extract_largest_from_srcset, selectSpecModel, hs, hcs, head_sortDescBy]

theorem select_none_iff (s : String) :
    extract_largest_from_srcset s = none ↔ candidatesOf s = [] := by
  rw [select_eq_spec, selectSpecModel]
  cases hc : candidatesOf s <;> simp [firstMaxBy, hc]

theorem select_some_firstMax (s : String) (u : String) :
    extract_largest_from_srcset s = some u →
      ∃ w, firstMaxBy (fun p => (p.1 : Int)) (candidatesOf s) = some (w, u) := by
  intro h
  rw [select_eq_spec, selectSpecModel] at h
  cases hfm : firstMaxBy (fun p => (p.1 : Int)) (candidatesOf s) with
  | none => rw [hfm] at h; simp at h
  | some m =>
    rw [hfm] at h; simp at h
    obtain ⟨a, b⟩ := m
    simp at h
    refine ⟨a, ?_⟩
    rw [h]

theorem candidates_url_ne_empty (s : String) (w : Nat) (u : String) :
    (w, u) ∈ candidatesOf s → u ≠ "" := by
  intro hmem
  rcases List.mem_filterMap.mp hmem with ⟨part, _, hparse⟩
  rw [parseSrcsetSegment, segMatchChars] at hparse
  split at hparse
  · rename_i hcond
    have hu : u = String.mk ((pyStrip part).takeWhile (fun c => !(isPySpace c))) := by
      injection hparse with h1; exact (congrArg Prod.snd h1).symm
    intro habs
    have : ((pyStrip part).takeWhile (fun c => !(isPySpace c))) = [] := by
      have := congrArg String.data (habs ▸ hu)
      simpa using this.symm
    exact hcond.1 this
  · exact absurd hparse (by simp)

theorem select_some_ne_empty (s : String) (u : String) :
    extract_largest_from_srcset s = some u → u ≠ "" := by
  intro h
  rcases select_some_firstMax s u h with ⟨w, hfm⟩
  exact candidates_url_ne_empty s w u
    (firstMaxBy_mem (fun p => (p.1 : Int)) (candidatesOf s) (w, u) hfm)

theorem takeWhile_append_eq (p : α → Bool) :
    ∀ (l j : List α), l.dropWhile p ≠ [] → (l ++ j).takeWhile p = l.takeWhile p := by
  intro l
  induction l with
  | nil => intro j h; simp [List.dropWhile] at h
  | cons c t ih =>
    intro j h
    cases hp : p c with
    | true =>
      have hd : List.dropWhile p (c :: t) = List.dropWhile p t := by
        simp [List.dropWhile, hp]
      rw [hd] at h
      simp only [List.cons_append]
      simp only [List.takeWhile, hp]
      rw [ih j h]
    | false =>
      simp only [List.cons_append]
      simp only [List.takeWhile, hp]

theorem dropWhile_append_eq (p : α → Bool) :
    ∀ (l j : List α), l.dropWhile p ≠ [] → (l ++ j).dropWhile p = l.dropWhile p ++ j := by
  intro l
  induction l with
  | nil => intro j h; simp [List.dropWhile] at h
  | cons c t ih =>
    intro j h
    cases hp : p c with
    | true =>
      have hd : List.dropWhile p (c :: t) = List.dropWhile p t := by
        simp [List.dropWhile, hp]
      rw [hd] at h
      simp only [List.cons_append]
      simp only [List.dropWhile, hp]
      exact ih j h
    | false =>
      simp only [List.cons_append]
      simp only [List.dropWhile, hp]
      simp

theorem head_dropWhile_not (p : α → Bool) :
    ∀ (l : List α) (c : α), (l.dropWhile p).head? = some c → p c = false := by
  intro l
  induction l with
  | nil => intro c h; simp [List.dropWhile] at h
  | cons x t ih =>
    intro c h
    cases hp : p x with
    | true =>
      have hd : List.dropWhile p (x :: t) = List.dropWhile p t := by
        simp [List.dropWhile, hp]
      rw [hd] at h
      exact ih c h
    | false =>
      have hd : List.dropWhile p (x :: t) = x :: t := by
        simp [List.dropWhile, hp]
      rw [hd] at h
      simp at h
      rw [← h]; exact hp

theorem keyedWidths_cons_ne_nil (v : Json) (vs : List Json)
    (keyed : List (Int × Json)) :
    keyedWidths (v :: vs) = some keyed → keyed ≠ [] := by
  intro h
  rw [keyedWidths] at h
  cases hw : widthKeyOf v with
  | none => rw [hw] at h; simp at h
  | some w =>
    rw [hw] at h
    cases hr : keyedWidths vs with
    | none => rw [hr] at h; simp at h
    | some rest =>
      rw [hr] at h
      simp at h
      rw [← h]
      simp

theorem takeWhile_ne_nil_of (p : α → Bool) (l : List α) :
    l.takeWhile p ≠ [] → l ≠ [] := by
  intro h hl; subst hl; exact h rfl

theorem head_some_ne_nil (l : List α) (c : α) : l.head? = some c → l ≠ [] := by
  intro h hl; subst hl; simp at h

theorem head_append_of_ne_nil (a b : List α) (h : a ≠ []) :
    (a ++ b).head? = a.head? := by
  cases a with
  | nil => exact absurd rfl h
  | cons x t => rfl

/-! ### Claim theorems -/

/-- Claim C1: for every descriptor string, `_extract_largest_from_srcset`
splits on commas, keeps the segments matching `<token> <digits>w` after
trimming, and returns the url of the candidate with the largest parsed
width, width ties broken by first-seen order (it equals the
specification-side `selectSpecModel` built on `firstMaxBy`); it returns
`none` exactly when no valid candidate exists (in particular on the empty
string), and the three spec examples hold.  Being a total Lean function,
the model also witnesses that no input raises. -/
theorem srcset_select_spec :
    (∀ s : String, extract_largest_from_srcset s = selectSpecModel s)
    ∧ (∀ s : String, extract_largest_from_srcset s = none ↔ candidatesOf s = [])
    ∧ (∀ s u, extract_largest_from_srcset s = some u →
        ∃ w, (w, u) ∈ candidatesOf s ∧ ∀ q ∈ candidatesOf s, (q.1 : Int) ≤ (w : Int))
    ∧ extract_largest_from_srcset "a.jpg 150w, b.jpg 640w, bogus, c.jpg 320w" = some "b.jpg"
    ∧ extract_largest_from_srcset "" = none
    ∧ extract_largest_from_srcset "x.jpg 100w" = some "x.jpg" := by
  refine ⟨select_eq_spec, select_none_iff, ?_, by decide, by decide, by decide⟩
  intro s u h
  rcases select_some_firstMax s u h with ⟨w, hfm⟩
  exact ⟨w, firstMaxBy_mem _ _ _ hfm, fun q hq => firstMaxBy_le _ _ _ hfm q hq⟩

/-- Witness for C1 at the spec's concrete examples. -/
theorem srcset_select_spec_witness :
    extract_largest_from_srcset "a.jpg 150w, b.jpg 640w, bogus, c.jpg 320w"
      = selectSpecModel "a.jpg 150w, b.jpg 640w, bogus, c.jpg 320w"
    ∧ extract_largest_from_srcset "" = none :=
  ⟨srcset_select_spec.1 "a.jpg 150w, b.jpg 640w, bogus, c.jpg 320w",
   srcset_select_spec.2.2.2.2.1⟩

/-- Claim C10: srcset segment validation is a prefix match — appending any
trailing junk to a segment the matcher accepts leaves the accepted
candidate unchanged, and concretely `a.jpg 640wjunk extra` yields
`(640, "a.jpg")` rather than being discarded. -/
theorem srcset_prefix_match :
    (∀ (l junk : List Char) (c : Nat × String),
      segMatchChars l = some c → segMatchChars (l ++ junk) = some c)
    ∧ segMatchChars "a.jpg 640wjunk extra".data = some (640, "a.jpg")
    ∧ extract_largest_from_srcset "a.jpg 640wjunk extra" = some "a.jpg" := by
  refine ⟨?_, by decide, by decide⟩
  intro l junk c h
  rw [segMatchChars] at h
  split at h
  case isFalse => simp at h
  case isTrue hcond =>
    obtain ⟨h1, h2, h3, h4⟩ := hcond
    have hr1 : l.dropWhile (fun c => !(isPySpace c)) ≠ [] :=
      takeWhile_ne_nil_of _ _ h2
    have hr2 : (l.dropWhile (fun c => !(isPySpace c))).dropWhile isPySpace ≠ [] :=
      takeWhile_ne_nil_of _ _ h3
    have hr3 : ((l.dropWhile (fun c => !(isPySpace c))).dropWhile isPySpace).dropWhile
        Char.isDigit ≠ [] := head_some_ne_nil _ _ h4
    rw [segMatchChars]
    rw [takeWhile_append_eq _ l junk hr1, dropWhile_append_eq _ l junk hr1,
        takeWhile_append_eq _ _ junk hr2, dropWhile_append_eq _ _ junk hr2,
        takeWhile_append_eq _ _ junk hr3, dropWhile_append_eq _ _ junk hr3,
        head_append_of_ne_nil _ junk hr3]
    rw [if_pos ⟨h1, h2, h3, h4⟩]
    exact h

/-- Witness for C10 at the concrete junk-suffixed segment. -/
theorem srcset_prefix_match_witness :
    segMatchChars ("a.jpg 640w".data ++ "junk extra".data) = some (640, "a.jpg") :=
  srcset_prefix_match.1 "a.jpg 640w".data "junk extra".data (640, "a.jpg") (by decide)

/-- Claim C3: strategy priority in `_extract_hd_from_page_json` — whenever
the `profile_pic_url_hd` pattern matches (yielding `u`) and a
`hd_profile_pic_versions` array carries a different url `v`, the function
returns `u`: the direct key/value pair wins. -/
theorem profile_pic_url_hd_priority
    (m u v : String)
    (h1 : searchList matchProfilePicHdAt (unescapeChars m.data) = some u)
    (h2 : versionsUrlOf (unescapeChars m.data) = some v)
    (h3 : v ≠ u) :
    extract_hd_from_page_json m = some u := by
  simp only [extract_hd_from_page_json, h1]

/-- Witness for C3 on markup holding both shapes with different urls. -/
theorem profile_pic_url_hd_priority_witness :
    extract_hd_from_page_json sampleHdBoth = some "https://cdn.example/hd.jpg" :=
  profile_pic_url_hd_priority sampleHdBoth "https://cdn.example/hd.jpg"
    "https://cdn.example/v.jpg" (by decide) (by decide) (by decide)

/-- Claim C4: when no `profile_pic_url_hd` match exists but a
`hd_profile_pic_versions` span parses to a non-empty list whose sort keys
all compute (`width` defaulting to 0), the extractor returns the `url`
field of the entry that a stable descending sort by width puts first —
the first-seen entry of maximal width; concretely, the spec's escaped
two-entry array yields `"l.jpg"`. -/
theorem hd_versions_widest :
    (∀ (m : String) (span : List Char) (vs : List Json) (keyed : List (Int × Json)),
      searchList matchProfilePicHdAt (unescapeChars m.data) = none →
      searchList matchVersionsSpanAt (unescapeChars m.data) = some span →
      json_loads span = some (.arr vs) →
      vs ≠ [] →
      keyedWidths vs = some keyed →
      ∃ top, firstMaxBy Prod.fst keyed = some top
        ∧ (∀ q ∈ keyed, q.1 ≤ top.1)
        ∧ extract_hd_from_page_json m = jsonUrlField top.2)
    ∧ extract_hd_from_page_json sampleEscapedVersions = some "l.jpg" := by
  refine ⟨?_, by decide⟩
  intro m span vs keyed h1 h2 h3 h4 h5
  have hkne : keyed ≠ [] := by
    cases vs with
    | nil => exact absurd rfl h4
    | cons v vs' => exact keyedWidths_cons_ne_nil v vs' keyed h5
  cases hfm : firstMaxBy (Prod.fst (α := Int) (β := Json)) keyed with
  | none => exact absurd ((firstMaxBy_none_iff _ _).mp hfm) hkne
  | some top =>
    refine ⟨top, rfl, fun q hq => firstMaxBy_le _ _ _ hfm q hq, ?_⟩
    have hie : vs.isEmpty = false := by
      cases vs with
      | nil => exact absurd rfl h4
      | cons v vs' => rfl
    have hv : versionsResult span = some (jsonUrlField top.2) := by
      rw [versionsResult, h3]
      simp only [hie, Bool.false_eq_true, if_false, h5, head_sortDescBy, hfm]
    simp only [extract_hd_from_page_json, h1, h2, hv]

/-- Witness for C4 at the spec's escaped two-entry array. -/
theorem hd_versions_widest_witness :
    ∃ top, firstMaxBy Prod.fst sampleVersionsKeyed = some top
      ∧ (∀ q ∈ sampleVersionsKeyed, q.1 ≤ top.1)
      ∧ extract_hd_from_page_json sampleEscapedVersions = jsonUrlField top.2 :=
  hd_versions_widest.1 sampleEscapedVersions sampleVersionsSpan sampleVersionsJson
    sampleVersionsKeyed (by decide) (by decide) (by rfl) (by simp [sampleVersionsJson])
    (by rfl)

/-- Claim C5: when the image element is located, the best url is
`_extract_largest_from_srcset(srcset) or src` — the widest valid
responsive candidate wins, and the direct `src` is used exactly when no
valid candidate exists; concretely, `srcset="p.jpg 150w, q.jpg 750w"`
with `src="p.jpg"` resolves to `Found("q.jpg")`. -/
theorem resolve_prefers_widest :
    (∀ (markup src srcset u : String),
      notFound404Matches markup = false →
      extract_largest_from_srcset srcset = some u →
      fetch_pfp ⟨markup, some (src, srcset)⟩ = .ok u)
    ∧ (∀ (markup src srcset : String),
      notFound404Matches markup = false →
      extract_largest_from_srcset srcset = none →
      src ≠ "" →
      fetch_pfp ⟨markup, some (src, srcset)⟩ = .ok src)
    ∧ fetch_pfp ⟨"", some ("p.jpg", "p.jpg 150w, q.jpg 750w")⟩ = .ok "q.jpg" := by
  refine ⟨?_, ?_, by decide⟩
  · intro markup src srcset u h1 hsel
    have hu : u ≠ "" := select_some_ne_empty srcset u hsel
    simp only [fetch_pfp, h1, Bool.false_eq_true, if_false, hsel, pyOrStr, hu,
      if_neg hu]
  · intro markup src srcset h1 hsel hsrc
    simp only [fetch_pfp, h1, Bool.false_eq_true, if_false, hsel, pyOrStr,
      if_neg hsrc]

/-- Witness for C5 at the spec's concrete element. -/
theorem resolve_prefers_widest_witness :
    fetch_pfp ⟨"", some ("p.jpg", "p.jpg 150w, q.jpg 750w")⟩
      = FetchOutcome.ok "q.jpg" :=
  resolve_prefers_widest.1 "" "p.jpg" "p.jpg 150w, q.jpg 750w" "q.jpg"
    (by decide) (by decide)

/-- Claim C2 (code bug): the shipped regex
`r"Sorry, this page isn(?:'|’)t available\\."` spells, inside a raw
string, a literal backslash followed by any character; it therefore does
NOT match the site's canonical apology template (which ends in a plain
period), and only fires on texts carrying a stray backslash.  On a
snapshot whose markup is exactly the canonical template, the pipeline
consequently skips the `NotFound` branch and happily extracts an image —
contradicting the claim that such snapshots return `NotFound` before any
extraction runs. -/
theorem notfound_template_check_bug :
    notFound404Matches canonicalNotFound = false
    ∧ notFound404Matches backslashNotFound = true
    ∧ fetch_pfp ⟨"<html><body>" ++ canonicalNotFound ++ "</body></html>",
                 some ("p.jpg", "p.jpg 150w")⟩ = FetchOutcome.ok "p.jpg"
    ∧ fetch_pfp ⟨"<html><body>" ++ backslashNotFound ++ "</body></html>",
                 some ("p.jpg", "p.jpg 150w")⟩
        = FetchOutcome.httpError 404 "Username not found" := by
  refine ⟨by decide, by decide, by decide, by decide⟩

/-- Claim C6 counterexample: a snapshot where the image element is absent
(bounded wait timed out) while the markup holds an extractable
`profile_pic_url_hd` url.  The code raises 404 "Image not found"
immediately on the timeout and never consults the embedded-data
extractor, so the outcome is not `Found(url)` as the claim requires. -/
theorem resolve_embedded_fallback_cex :
    fetch_pfp ⟨sampleHdOnly, none⟩ = FetchOutcome.httpError 404 "Image not found"
    ∧ extract_hd_from_page_json sampleHdOnly = some "https://cdn.example/hd.jpg"
    ∧ FetchOutcome.httpError 404 "Image not found"
        ≠ FetchOutcome.ok "https://cdn.example/hd.jpg" := by
  refine ⟨by decide, by decide, by decide⟩

/-- Claim C6 amended: the embedded-data extractor is attempted only when
the image element WAS located but its src and srcset produced no
non-empty url; when no element is found within the bounded wait, the
pipeline returns 404 "Image not found" at once, whatever the markup
holds. -/
theorem resolve_embedded_fallback_amended
    (markup srcset u : String)
    (h1 : notFound404Matches markup = false)
    (h2 : extract_largest_from_srcset srcset = none)
    (h3 : extract_hd_from_page_json markup = some u)
    (h4 : u ≠ "") :
    fetch_pfp ⟨markup, some ("", srcset)⟩ = FetchOutcome.ok u
    ∧ fetch_pfp ⟨markup, none⟩ = FetchOutcome.httpError 404 "Image not found" := by
  constructor
  · simp [fetch_pfp, h1, h2, h3, pyOrStr, h4]
  · simp only [fetch_pfp, h1, Bool.false_eq_true, if_false]

/-- Witness for the amended C6. -/
theorem resolve_embedded_fallback_amended_witness :
    fetch_pfp ⟨sampleHdOnly, some ("", "")⟩
      = FetchOutcome.ok "https://cdn.example/hd.jpg"
    ∧ fetch_pfp ⟨sampleHdOnly, none⟩
      = FetchOutcome.httpError 404 "Image not found" :=
  resolve_embedded_fallback_amended sampleHdOnly "" "https://cdn.example/hd.jpg"
    (by decide) (by decide) (by decide) (by decide)

/-- Claim C7 counterexample: in the CLI variant (`download_pfp`,
main.py 70-144) every failure path returns `None`: an
account-not-found snapshot (one whose markup the shipped 404 regex
matches — it needs the literal backslash) and an
extraction-failure snapshot (timed-out element, nothing extractable)
produce the very same value, so the failure outcomes are collapsed, not
user-distinguishable. -/
theorem outcome_taxonomy_cex :
    download_pfp ⟨backslashNotFound, some ("x.jpg", "x.jpg 100w")⟩ = none
    ∧ download_pfp ⟨"", none⟩ = none
    ∧ download_pfp ⟨backslashNotFound, some ("x.jpg", "x.jpg 100w")⟩
        = download_pfp ⟨"", none⟩ := by
  refine ⟨by decide, by decide, by decide⟩

/-- Claim C7 amended: in the API variant a snapshot with no matching image
element (and nothing extractable) raises HTTP 404 "Image not found" —
the same outcome as an extraction failure — and that outcome is
distinguishable from the account-not-found outcome
404 "Username not found"; the CLI variant, however, collapses all
failures to `None`. -/
theorem outcome_taxonomy_amended
    (markup : String)
    (h1 : notFound404Matches markup = false)
    (h2 : extract_hd_from_page_json markup = none) :
    fetch_pfp ⟨markup, none⟩ = FetchOutcome.httpError 404 "Image not found"
    ∧ FetchOutcome.httpError 404 "Image not found"
        ≠ FetchOutcome.httpError 404 "Username not found" := by
  constructor
  · simp only [fetch_pfp, h1, Bool.false_eq_true, if_false]
  · decide

/-- Witness for the amended C7. -/
theorem outcome_taxonomy_amended_witness :
    fetch_pfp ⟨"<html></html>", none⟩
      = FetchOutcome.httpError 404 "Image not found"
    ∧ FetchOutcome.httpError 404 "Image not found"
        ≠ FetchOutcome.httpError 404 "Username not found" :=
  outcome_taxonomy_amended "<html></html>" (by decide) (by decide)

/-- Claim C8 counterexample: markup whose `hd_profile_pic_versions` array
parses but whose widest entry lacks a `url` field, while a
`hd_profile_pic_url_info` object carrying a url is present.  The code
executes `return versions[0].get("url")` and terminally returns `None`;
it does NOT fall through to the `hd_profile_pic_url_info` strategy,
which would have yielded the url. -/
theorem versions_missing_url_cex :
    extract_hd_from_page_json sampleMissingUrl = none
    ∧ urlInfoStep (unescapeChars sampleMissingUrl.data)
        = some "https://cdn.example/info.jpg" := by
  refine ⟨by decide, by decide⟩

/-- Claim C8 amended: when the versions array parses to a non-empty list
of objects with computable sort keys and the first-seen widest entry has
no (string) `url` field, the extractor returns `None` immediately,
without attempting the `hd_profile_pic_url_info` strategy. -/
theorem versions_missing_url_amended
    (m : String) (span : List Char) (vs : List Json)
    (keyed : List (Int × Json)) (top : Int × Json)
    (h1 : searchList matchProfilePicHdAt (unescapeChars m.data) = none)
    (h2 : searchList matchVersionsSpanAt (unescapeChars m.data) = some span)
    (h3 : json_loads span = some (.arr vs))
    (h4 : vs ≠ [])
    (h5 : keyedWidths vs = some keyed)
    (h6 : firstMaxBy Prod.fst keyed = some top)
    (h7 : jsonUrlField top.2 = none) :
    extract_hd_from_page_json m = none := by
  have hie : vs.isEmpty = false := by
    cases vs with
    | nil => exact absurd rfl h4
    | cons v vs' => rfl
  have hv : versionsResult span = some none := by
    rw [versionsResult, h3]
    simp only [hie, Bool.false_eq_true, if_false, h5, head_sortDescBy, h6, h7]
  simp only [extract_hd_from_page_json, h1, h2, hv]

/-- Witness for the amended C8. -/
theorem versions_missing_url_amended_witness :
    extract_hd_from_page_json sampleMissingUrl = none :=
  versions_missing_url_amended sampleMissingUrl
    "[\x7b\"width\":100\x7d]".data
    [Json.obj [("width", Json.num 100)]]
    [(100, Json.obj [("width", Json.num 100)])]
    (100, Json.obj [("width", Json.num 100)])
    (by decide) (by decide) (by rfl) (by simp) (by rfl) (by rfl) (by rfl)

/-- Claim C9 counterexample: `username.lstrip('@')` removes every leading
`@`, not exactly one: `"@@user"` normalises to `"user"`, not to
`"@user"` as the claim states. -/
theorem username_at_strip_cex :
    normalize_username "@@user" = "user" ∧ ("user" : String) ≠ "@user" := by
  refine ⟨by decide, by decide⟩

/-- Claim C9 amended: normalisation (performed inside
`fetch_pfp`/`download_pfp` before the target URL is built) strips ALL
leading `@` characters — prepending an `@` never changes the result, an
input with no leading `@` is unchanged, the result never starts with
`@`, and the target URL is built from the stripped name. -/
theorem username_at_strip_amended (u : String) :
    normalize_username ("@" ++ u) = normalize_username u
    ∧ (u.data.head? ≠ some '@' → normalize_username u = u)
    ∧ (normalize_username u).data.head? ≠ some '@'
    ∧ profile_url_for u = "https://www.instagram.com/" ++ normalize_username u ++ "/" := by
  refine ⟨?_, ?_, ?_, rfl⟩
  · have hdata : ("@" ++ u).data = '@' :: u.data := by
      rw [String.data_append]; rfl
    rw [normalize_username, normalize_username, hdata]
    simp [List.dropWhile]
  · intro hne
    have hl : u.data.dropWhile (fun c => c = '@') = u.data := by
      cases hd : u.data with
      | nil => rfl
      | cons c t =>
        have hc : ¬ (decide (c = '@') = true) := by
          simp
          intro habs
          exact hne (by rw [hd, habs]; rfl)
        exact List.dropWhile_cons_of_neg hc
    rw [normalize_username, hl]
  · rw [normalize_username]
    show (u.data.dropWhile (fun c => c = '@')).head? ≠ some '@'
    intro habs
    have := head_dropWhile_not _ u.data '@' habs
    simp at this

/-- Witness for the amended C9. -/
theorem username_at_strip_amended_witness :
    normalize_username ("@" ++ "zuck") = normalize_username "zuck"
    ∧ (("zuck" : String).data.head? ≠ some '@' → normalize_username "zuck" = "zuck")
    ∧ (normalize_username "zuck").data.head? ≠ some '@'
    ∧ profile_url_for "zuck"
        = "https://www.instagram.com/" ++ normalize_username "zuck" ++ "/" :=
  username_at_strip_amended "zuck"

end InstaPFP
